import Mathlib

/-!
Verification of the CCPR contour-chopping geometry accumulator
(src/gpu/ccpr/GrCCPRGeometry.h).

The header declares the data model (Verb, PrimitiveTallies, the two parallel
output buffers and the transient contour-build state) and defines inline the
tally arithmetic, the accessors, reset and resize_back.  The bodies of the
ingestion methods (beginPath, beginContour, lineTo, quadraticTo, cubicTo,
endContour and the private append helpers) live in a translation unit that is
not part of the source tree, so those operations are modelled from the
specification, as noted on each definition.

Device-space coordinates are modelled by exact rational arithmetic,
represented as unnormalized integer fractions so that every operation is
executable by kernel reduction.  Numeric comparisons that the specification
describes as tolerance-based are modelled with tolerance zero (exact value
comparison by cross multiplication).
-/

/-- Scalar is the model of a device-space coordinate: an exact rational
number stored as an unnormalized fraction of integers.  All operations keep
the denominator positive when both inputs have positive denominators. -/
structure Scalar where
  num : Int
  den : Int
deriving DecidableEq

instance (n : Nat) : OfNat Scalar n := ⟨⟨Int.ofNat n, 1⟩⟩

instance : Add Scalar := ⟨fun a b => ⟨a.num * b.den + b.num * a.den, a.den * b.den⟩⟩

instance : Sub Scalar := ⟨fun a b => ⟨a.num * b.den - b.num * a.den, a.den * b.den⟩⟩

instance : Mul Scalar := ⟨fun a b => ⟨a.num * b.num, a.den * b.den⟩⟩

instance : Neg Scalar := ⟨fun a => ⟨-a.num, a.den⟩⟩

/-- Division of scalars; the sign of the divisor is moved into the numerator
so that a positive denominator stays positive.  Division by a zero scalar is
never performed by the model (every use is guarded by a sign test). -/
instance : Div Scalar := ⟨fun a b =>
  if b.num < 0 then ⟨-(a.num * b.den), a.den * (-b.num)⟩ else ⟨a.num * b.den, a.den * b.num⟩⟩

/-- Value equality of two scalars, decided by cross multiplication. -/
def Scalar.veq (a b : Scalar) : Bool := decide (a.num * b.den = b.num * a.den)

/-- Value strict order of two scalars, decided by cross multiplication
(valid for the positive denominators maintained by the model). -/
def Scalar.vlt (a b : Scalar) : Bool := decide (a.num * b.den < b.num * a.den)

/-- Fuel-bounded Newton iteration for an integer square root
approximation. -/
def natSqrtAux (n : Nat) : Nat → Nat → Nat
  | x, 0 => x
  | x, Nat.succ fuel =>
      let y := (x + n / x) / 2
      if y < x then natSqrtAux n y fuel else x

/-- Integer square root approximation by Newton iteration. -/
def natSqrtApprox (n : Nat) : Nat :=
  if n = 0 then 0 else natSqrtAux n n 64

/-- Rational square-root approximation used only to place cubic chop
parameters.  The specification computes these chop parameters with
closed-form real square roots; the model approximates them in exact rational
arithmetic.  None of the verified properties depend on the approximated
values. -/
def Scalar.approxSqrt (a : Scalar) : Scalar :=
  if a.num ≤ 0 ∨ a.den ≤ 0 then ⟨0, 1⟩
  else ⟨Int.ofNat (natSqrtApprox (a.num.toNat * a.den.toNat * 1000000)), a.den * 1000⟩

/-- SkPoint models the two device-space coordinates of a point. -/
structure SkPoint where
  x : Scalar
  y : Scalar
deriving DecidableEq

/-- Convenience constructor for integer-coordinate points. -/
def mkPt (x y : Int) : SkPoint := ⟨⟨x, 1⟩, ⟨y, 1⟩⟩

/-- Componentwise difference of two points. -/
def SkPoint.sub (a b : SkPoint) : SkPoint := ⟨a.x - b.x, a.y - b.y⟩

/-- Dot product of two points viewed as vectors. -/
def SkPoint.dot (a b : SkPoint) : Scalar := a.x * b.x + a.y * b.y

/-- Linear interpolation between two points at parameter t. -/
def SkPoint.lerp (a b : SkPoint) (t : Scalar) : SkPoint :=
  ⟨a.x + t * (b.x - a.x), a.y + t * (b.y - a.y)⟩

/-- Value equality of two points (exact model of the tight-tolerance
coincidence test used when closing a contour). -/
def SkPoint.eqv (a b : SkPoint) : Bool := Scalar.veq a.x b.x && Scalar.veq a.y b.y

/-- Triple product of three points lifted to homogeneous coordinates with
weight one: the dot of the first with the cross of the other two.  This is
the control-point cross product from which the cubic classifier builds its
discriminant terms. -/
def SkPoint.dotCross (p q r : SkPoint) : Scalar :=
  p.x * (q.y - r.y) + p.y * (r.x - q.x) + (q.x * r.y - r.x * q.y)

/-- Verb is the closed vocabulary of primitives CCPR knows how to draw,
in the order declared in GrCCPRGeometry.h. -/
inductive GrCCPRGeometry.Verb : Type where
  | kBeginPath
  | kBeginContour
  | kLineTo
  | kMonotonicQuadraticTo
  | kConvexSerpentineTo
  | kConvexLoopTo
  | kEndClosedContour
  | kEndOpenContour
deriving DecidableEq

/-- PrimitiveTallies tracks the numbers of CCPR primitives required to draw
a contour, as declared in GrCCPRGeometry.h.  The C++ fields are int; the
model uses unbounded integers, matching the exact-arithmetic reading of the
tally algebra. -/
structure GrCCPRGeometry.PrimitiveTallies where
  fTriangles : Int
  fQuadratics : Int
  fSerpentines : Int
  fLoops : Int
deriving DecidableEq

/-- Model of PrimitiveTallies::operator+= from GrCCPRGeometry.h lines 98-103:
componentwise addition, returning the updated left operand. -/
def GrCCPRGeometry.PrimitiveTallies.add (a b : GrCCPRGeometry.PrimitiveTallies) :
    GrCCPRGeometry.PrimitiveTallies :=
  ⟨a.fTriangles + b.fTriangles, a.fQuadratics + b.fQuadratics,
   a.fSerpentines + b.fSerpentines, a.fLoops + b.fLoops⟩

/-- Model of PrimitiveTallies::operator- from GrCCPRGeometry.h lines 105-111:
componentwise subtraction. -/
def GrCCPRGeometry.PrimitiveTallies.sub (a b : GrCCPRGeometry.PrimitiveTallies) :
    GrCCPRGeometry.PrimitiveTallies :=
  ⟨a.fTriangles - b.fTriangles, a.fQuadratics - b.fQuadratics,
   a.fSerpentines - b.fSerpentines, a.fLoops - b.fLoops⟩

/-- The accumulator state: transient contour-build state (anchor point,
running fan point, per-contour tallies, the debug building flag) and the two
parallel output buffers, as declared in GrCCPRGeometry.h lines 87-95.
The SkSTArray buffers are modelled as lists; their inline storage and
capacity are not observable. -/
structure GrCCPRGeometry where
  fCurrAnchorPoint : SkPoint
  fCurrFanPoint : SkPoint
  fCurrContourTallies : GrCCPRGeometry.PrimitiveTallies
  fBuildingContour : Bool
  fPoints : List SkPoint
  fVerbs : List GrCCPRGeometry.Verb
deriving DecidableEq

/-- Model of the GrCCPRGeometry constructor (header lines 52-54): the
numSkPoints and numSkVerbs arguments only reserve buffer capacity for a
three-fold expansion; capacity is not observable in the list model, so both
buffers start empty and no contour is open (the debug flag initializer in
line 91). -/
def mkGrCCPRGeometry (numSkPoints numSkVerbs : Nat) : GrCCPRGeometry :=
  { fCurrAnchorPoint := mkPt 0 0
    fCurrFanPoint := mkPt 0 0
    fCurrContourTallies := ⟨0, 0, 0, 0⟩
    fBuildingContour := false
    fPoints := []
    fVerbs := [] }

/-- The points() accessor (header line 56). Its SkASSERT(!fBuildingContour)
precondition appears as a hypothesis where relevant. -/
def GrCCPRGeometry.points (g : GrCCPRGeometry) : List SkPoint := g.fPoints

/-- The verbs() accessor (header line 57). Its SkASSERT(!fBuildingContour)
precondition appears as a hypothesis where relevant. -/
def GrCCPRGeometry.verbs (g : GrCCPRGeometry) : List GrCCPRGeometry.Verb := g.fVerbs

/-- Model of reset() (header lines 59-63): clears both buffers. -/
def GrCCPRGeometry.reset (g : GrCCPRGeometry) : GrCCPRGeometry :=
  { g with fPoints := [], fVerbs := [] }

/-- Model of resize_back(numPoints, numVerbs) (header lines 68-74): both
buffers are truncated to the given lengths.  The SkTArray::resize_back
bodies are not in the source tree; per the specification the call truncates
both buffers to the given lengths. -/
def GrCCPRGeometry.resize_back (g : GrCCPRGeometry) (numPoints numVerbs : Nat) :
    GrCCPRGeometry :=
  { g with fPoints := g.fPoints.take numPoints, fVerbs := g.fVerbs.take numVerbs }

/-- The condition checked by the SkASSERT at header lines 72-73 after a
resize_back: the verb buffer is empty or its last verb is a contour-end
verb. -/
def GrCCPRGeometry.resizeBackAssertOK (g : GrCCPRGeometry) : Prop :=
  g.fVerbs = [] ∨
    ∃ v, g.fVerbs.getLast? = some v ∧
      (v = GrCCPRGeometry.Verb.kEndOpenContour ∨ v = GrCCPRGeometry.Verb.kEndClosedContour)

/-- Modelled from the spec: the body of beginPath() is not in the source
tree.  It appends a path-begin marker verb and consumes no points. -/
def GrCCPRGeometry.beginPath (g : GrCCPRGeometry) : GrCCPRGeometry :=
  { g with fVerbs := g.fVerbs ++ [GrCCPRGeometry.Verb.kBeginPath] }

/-- Modelled from the spec: the body of beginContour(devPt) is not in the
source tree.  It records the point as both the fan anchor and the running
point, appends a contour-begin verb and the point, and resets the
per-contour tally to zero. -/
def GrCCPRGeometry.beginContour (g : GrCCPRGeometry) (devPt : SkPoint) : GrCCPRGeometry :=
  { g with
    fCurrAnchorPoint := devPt
    fCurrFanPoint := devPt
    fCurrContourTallies := ⟨0, 0, 0, 0⟩
    fBuildingContour := true
    fVerbs := g.fVerbs ++ [GrCCPRGeometry.Verb.kBeginContour]
    fPoints := g.fPoints ++ [devPt] }

/-- Modelled from the spec: the body of lineTo(devPt) is not in the source
tree.  It appends a line-to verb and the point, updates the running point,
and counts one fan triangle with no specialized counter. -/
def GrCCPRGeometry.lineTo (g : GrCCPRGeometry) (devPt : SkPoint) : GrCCPRGeometry :=
  { g with
    fVerbs := g.fVerbs ++ [GrCCPRGeometry.Verb.kLineTo]
    fPoints := g.fPoints ++ [devPt]
    fCurrFanPoint := devPt
    fCurrContourTallies :=
      { g.fCurrContourTallies with
        fTriangles := g.fCurrContourTallies.fTriangles + 1 } }

/-- Modelled from the spec: the body of the private appendMonotonicQuadratic
helper is not in the source tree.  It appends a monotonic-quadratic-to verb
and its control and end points, updates the running point, and increments
the quadratic counter and the fan counter once. -/
def GrCCPRGeometry.appendMonotonicQuadratic (g : GrCCPRGeometry) (p1 p2 : SkPoint) :
    GrCCPRGeometry :=
  { g with
    fVerbs := g.fVerbs ++ [GrCCPRGeometry.Verb.kMonotonicQuadraticTo]
    fPoints := g.fPoints ++ [p1, p2]
    fCurrFanPoint := p2
    fCurrContourTallies :=
      { g.fCurrContourTallies with
        fTriangles := g.fCurrContourTallies.fTriangles + 1
        fQuadratics := g.fCurrContourTallies.fQuadratics + 1 } }

/-- Modelled from the spec: the monotonic decomposer root test.  The signed
rate of change of position along the chord direction is linear in the
parameter, running from the dot of the first leg with the chord to the dot
of the second leg with the chord; it has a root strictly inside the open
unit interval exactly when those two dots have strictly opposite signs, and
the root is then the first dot over the difference of the dots.  Roots at or
beyond the endpoints yield no split. -/
def GrCCPRGeometry.chopParam (p0 p1 p2 : SkPoint) : Option Scalar :=
  let d := SkPoint.sub p2 p0
  let a := SkPoint.dot (SkPoint.sub p1 p0) d
  let b := SkPoint.dot (SkPoint.sub p2 p1) d
  if Scalar.vlt (a * b) 0 then some (a / (a - b)) else none

/-- Modelled from the spec: the body of quadraticTo(devP1, devP2) is not in
the source tree.  Using the running point as the implicit start, it either
emits the quadratic unchanged when it is already monotonic relative to its
chord, or de-Casteljau-splits it at the unique interior root of the
chord-tangent function and emits the two monotonic halves, which share the
split point. -/
def GrCCPRGeometry.quadraticTo (g : GrCCPRGeometry) (devP1 devP2 : SkPoint) :
    GrCCPRGeometry :=
  let p0 := g.fCurrFanPoint
  match GrCCPRGeometry.chopParam p0 devP1 devP2 with
  | none => GrCCPRGeometry.appendMonotonicQuadratic g devP1 devP2
  | some t =>
      let q1 := SkPoint.lerp p0 devP1 t
      let q2 := SkPoint.lerp devP1 devP2 t
      let m := SkPoint.lerp q1 q2 t
      GrCCPRGeometry.appendMonotonicQuadratic
        (GrCCPRGeometry.appendMonotonicQuadratic g q1 m) q2 devP2

/-- Modelled from the spec: the discriminant terms of the cubic classifier,
built from the control-point cross products of the homogeneous
parametrization.  The three auxiliary triple products are combined into the
three classification coefficients. -/
def GrCCPRGeometry.cubicDs (p0 p1 p2 p3 : SkPoint) : Scalar × Scalar × Scalar :=
  let a1 := SkPoint.dotCross p0 p3 p2
  let a2 := SkPoint.dotCross p1 p0 p3
  let a3 := SkPoint.dotCross p2 p1 p0
  (a1 - 2 * a2 + 3 * a3, -a2 + 3 * a3, 3 * a3)

/-- Insert a parameter into an already sorted parameter list. -/
def GrCCPRGeometry.insertParam (t : Scalar) : List Scalar → List Scalar
  | [] => [t]
  | u :: us => if Scalar.vlt t u then t :: u :: us else u :: GrCCPRGeometry.insertParam t us

/-- Sort a short chop-parameter list. -/
def GrCCPRGeometry.sortParams : List Scalar → List Scalar
  | [] => []
  | t :: ts => GrCCPRGeometry.insertParam t (GrCCPRGeometry.sortParams ts)

/-- Remove adjacent duplicate chop parameters (the de-duplication of the
specification, with the epsilon modelled as exact value equality). -/
def GrCCPRGeometry.dedupAdjacent : List Scalar → List Scalar
  | [] => []
  | [t] => [t]
  | t :: u :: ts =>
      if Scalar.veq t u then GrCCPRGeometry.dedupAdjacent (u :: ts)
      else t :: GrCCPRGeometry.dedupAdjacent (u :: ts)

/-- One de Casteljau chop of a cubic at a parameter: the first piece's three
appended points, then the second piece's four control points. -/
def GrCCPRGeometry.chopCubicOnce (p0 p1 p2 p3 : SkPoint) (t : Scalar) :
    (SkPoint × SkPoint × SkPoint) × (SkPoint × SkPoint × SkPoint × SkPoint) :=
  let ab := SkPoint.lerp p0 p1 t
  let bc := SkPoint.lerp p1 p2 t
  let cd := SkPoint.lerp p2 p3 t
  let abc := SkPoint.lerp ab bc t
  let bcd := SkPoint.lerp bc cd t
  let m := SkPoint.lerp abc bcd t
  ((ab, abc, m), (m, bcd, cd, p3))

/-- Chop the remaining cubic, which covers the global parameter range from
prev to one, at an increasing list of global parameters, yielding for each
piece its two control points and its end point (the start point of each
piece is the previous piece's end point, so contiguity holds by
construction, and the final piece ends exactly at the cubic's end point). -/
def GrCCPRGeometry.cubicPiecesAux :
    SkPoint → SkPoint → SkPoint → SkPoint → Scalar → List Scalar →
      List (SkPoint × SkPoint × SkPoint)
  | _p0, p1, p2, p3, _prev, [] => [(p1, p2, p3)]
  | p0, p1, p2, p3, prev, u :: us =>
      let t := (u - prev) / (1 - prev)
      let c := GrCCPRGeometry.chopCubicOnce p0 p1 p2 p3 t
      c.1 :: GrCCPRGeometry.cubicPiecesAux c.2.1 c.2.2.1 c.2.2.2.1 c.2.2.2.2 u us

/-- Chop a cubic at an increasing list of parameters from the open unit
interval. -/
def GrCCPRGeometry.cubicPieces (p0 p1 p2 p3 : SkPoint) (ts : List Scalar) :
    List (SkPoint × SkPoint × SkPoint) :=
  GrCCPRGeometry.cubicPiecesAux p0 p1 p2 p3 0 ts

/-- Modelled from the spec: the convex chopper.  Given the classification
coefficients, it locates the chop parameters by closed-form root solving
(the serpentine inflections, the loop self-intersection window, or the
single cusp parameter when the leading coefficient vanishes), keeps the
roots strictly inside the open unit interval, sorts and de-duplicates them,
chops the cubic there, and tags each resulting piece as a loop piece exactly
when the loop window covers it, otherwise as a serpentine piece. -/
def GrCCPRGeometry.convexPieceList (p0 p1 p2 p3 : SkPoint) (d1 d2 d3 : Scalar) :
    List (Bool × SkPoint × SkPoint × SkPoint) :=
  let disc := 3 * d2 * d2 - 4 * d1 * d3
  let isLoopCase := !Scalar.veq d1 0 && Scalar.vlt disc 0
  let roots : List Scalar :=
    if Scalar.veq d1 0 then [d3 / (3 * d2)]
    else if Scalar.vlt disc 0 then
      [(d2 - Scalar.approxSqrt (-disc)) / (2 * d1),
       (d2 + Scalar.approxSqrt (-disc)) / (2 * d1)]
    else
      [(3 * d2 - Scalar.approxSqrt (3 * disc)) / (6 * d1),
       (3 * d2 + Scalar.approxSqrt (3 * disc)) / (6 * d1)]
  let sorted := GrCCPRGeometry.sortParams roots
  let lo := sorted.headD 1
  let hi := (sorted.drop 1).headD 0
  let ts := GrCCPRGeometry.dedupAdjacent (GrCCPRGeometry.sortParams
    (roots.filter (fun t => Scalar.vlt 0 t && Scalar.vlt t 1)))
  let bs : List Scalar := 0 :: ts ++ [1]
  let flags := (bs.zip bs.tail).map (fun bp =>
    isLoopCase && Scalar.vlt lo ((bp.1 + bp.2) / 2) && Scalar.vlt ((bp.1 + bp.2) / 2) hi)
  flags.zip (GrCCPRGeometry.cubicPieces p0 p1 p2 p3 ts)

/-- Modelled from the spec: the private appendConvexCubic helper is not in
the source tree.  It appends a convex-loop-to or convex-serpentine-to verb
and the piece's two control points and end point, updates the running
point, and increments the matching counter and the fan counter once. -/
def GrCCPRGeometry.appendConvexCubic (g : GrCCPRGeometry)
    (pc : Bool × SkPoint × SkPoint × SkPoint) : GrCCPRGeometry :=
  { g with
    fVerbs := g.fVerbs ++
      [if pc.1 then GrCCPRGeometry.Verb.kConvexLoopTo
       else GrCCPRGeometry.Verb.kConvexSerpentineTo]
    fPoints := g.fPoints ++ [pc.2.1, pc.2.2.1, pc.2.2.2]
    fCurrFanPoint := pc.2.2.2
    fCurrContourTallies :=
      if pc.1 then
        { g.fCurrContourTallies with
          fTriangles := g.fCurrContourTallies.fTriangles + 1
          fLoops := g.fCurrContourTallies.fLoops + 1 }
      else
        { g.fCurrContourTallies with
          fTriangles := g.fCurrContourTallies.fTriangles + 1
          fSerpentines := g.fCurrContourTallies.fSerpentines + 1 } }

/-- Append a list of tagged convex cubic pieces. -/
def GrCCPRGeometry.appendConvexList (g : GrCCPRGeometry)
    (l : List (Bool × SkPoint × SkPoint × SkPoint)) : GrCCPRGeometry :=
  l.foldl GrCCPRGeometry.appendConvexCubic g

/-- The control point of the quadratic a quadratic-degenerate cubic
elevates: the start point plus three halves of the first leg. -/
def GrCCPRGeometry.quadCtrlOfCubic (p0 p1 : SkPoint) : SkPoint :=
  ⟨(3 * p1.x - p0.x) / 2, (3 * p1.y - p0.y) / 2⟩

/-- Modelled from the spec: the body of cubicTo(devP1, devP2, devP3) is not
in the source tree.  Using the running point as the implicit start, it
classifies the cubic by the discriminant terms: when all vanish the cubic
is a line and is emitted directly as a line; when the first two vanish the
cubic is quadratic-degenerate and is rerouted to the monotonic decomposer;
otherwise the convex chopper emits the tagged convex pieces.  The running
point ends at the cubic's end point regardless of how many pieces were
emitted. -/
def GrCCPRGeometry.cubicTo (g : GrCCPRGeometry) (devP1 devP2 devP3 : SkPoint) :
    GrCCPRGeometry :=
  let p0 := g.fCurrFanPoint
  let ds := GrCCPRGeometry.cubicDs p0 devP1 devP2 devP3
  if Scalar.veq ds.1 0 && Scalar.veq ds.2.1 0 then
    if Scalar.veq ds.2.2 0 then GrCCPRGeometry.lineTo g devP3
    else GrCCPRGeometry.quadraticTo g (GrCCPRGeometry.quadCtrlOfCubic p0 devP1) devP3
  else
    { GrCCPRGeometry.appendConvexList g
        (GrCCPRGeometry.convexPieceList p0 devP1 devP2 devP3 ds.1 ds.2.1 ds.2.2) with
      fCurrFanPoint := devP3 }

/-- Modelled from the spec: the body of endContour() is not in the source
tree.  It appends a contour-end-closed verb when the running point equals
the fan anchor (the tight numeric tolerance of the specification is
modelled as exact value equality), otherwise a contour-end-open verb;
closes the contour-build state; and returns the contour tally, which was
zeroed at contour-begin and is therefore a pure per-contour delta. -/
def GrCCPRGeometry.endContour (g : GrCCPRGeometry) :
    GrCCPRGeometry × GrCCPRGeometry.PrimitiveTallies :=
  ({ g with
      fVerbs := g.fVerbs ++
        [if SkPoint.eqv g.fCurrFanPoint g.fCurrAnchorPoint then
          GrCCPRGeometry.Verb.kEndClosedContour
        else
          GrCCPRGeometry.Verb.kEndOpenContour]
      fBuildingContour := false },
   g.fCurrContourTallies)

/-- One call of the ingestion API, for quantifying over call sequences. -/
inductive Cmd : Type where
  | beginPath
  | beginContour (p : SkPoint)
  | lineTo (p : SkPoint)
  | quadraticTo (p1 p2 : SkPoint)
  | cubicTo (p1 p2 p3 : SkPoint)
  | endContour
deriving DecidableEq

/-- Execute one API call, enforcing the SkASSERT preconditions of the
contract: path-begin and contour-begin require no open contour, the segment
calls and contour-end require an open contour.  A violated precondition is
a contract failure, modelled as none. -/
def runCmd (g : GrCCPRGeometry) : Cmd → Option GrCCPRGeometry
  | Cmd.beginPath => if g.fBuildingContour then none else some (GrCCPRGeometry.beginPath g)
  | Cmd.beginContour p =>
      if g.fBuildingContour then none else some (GrCCPRGeometry.beginContour g p)
  | Cmd.lineTo p => if g.fBuildingContour then some (GrCCPRGeometry.lineTo g p) else none
  | Cmd.quadraticTo p1 p2 =>
      if g.fBuildingContour then some (GrCCPRGeometry.quadraticTo g p1 p2) else none
  | Cmd.cubicTo p1 p2 p3 =>
      if g.fBuildingContour then some (GrCCPRGeometry.cubicTo g p1 p2 p3) else none
  | Cmd.endContour =>
      if g.fBuildingContour then some (GrCCPRGeometry.endContour g).1 else none

/-- Execute a sequence of API calls, failing on the first contract
violation. -/
def runCmds (g : GrCCPRGeometry) : List Cmd → Option GrCCPRGeometry
  | [] => some g
  | c :: cs =>
      match runCmd g c with
      | none => none
      | some g2 => runCmds g2 cs

/-- One segment-append call of an open contour. -/
inductive SegCmd : Type where
  | lineTo (p : SkPoint)
  | quadraticTo (p1 p2 : SkPoint)
  | cubicTo (p1 p2 p3 : SkPoint)
deriving DecidableEq

/-- Execute one segment-append call. -/
def runSeg (g : GrCCPRGeometry) : SegCmd → GrCCPRGeometry
  | SegCmd.lineTo p => GrCCPRGeometry.lineTo g p
  | SegCmd.quadraticTo p1 p2 => GrCCPRGeometry.quadraticTo g p1 p2
  | SegCmd.cubicTo p1 p2 p3 => GrCCPRGeometry.cubicTo g p1 p2 p3

/-- Execute a sequence of segment-append calls. -/
def runSegs (g : GrCCPRGeometry) (l : List SegCmd) : GrCCPRGeometry :=
  l.foldl runSeg g

/-- The fixed point-arity of each verb: how many points the downstream
consumer reads for it. -/
def GrCCPRGeometry.arity : GrCCPRGeometry.Verb → Nat
  | GrCCPRGeometry.Verb.kBeginPath => 0
  | GrCCPRGeometry.Verb.kBeginContour => 1
  | GrCCPRGeometry.Verb.kLineTo => 1
  | GrCCPRGeometry.Verb.kMonotonicQuadraticTo => 2
  | GrCCPRGeometry.Verb.kConvexSerpentineTo => 3
  | GrCCPRGeometry.Verb.kConvexLoopTo => 3
  | GrCCPRGeometry.Verb.kEndClosedContour => 0
  | GrCCPRGeometry.Verb.kEndOpenContour => 0

/-- Sum of the point-arities over a verb stream. -/
def aritySum : List GrCCPRGeometry.Verb → Nat
  | [] => 0
  | v :: vs => GrCCPRGeometry.arity v + aritySum vs

/-- Number of line-to verbs in a verb stream. -/
def countLineTo : List GrCCPRGeometry.Verb → Nat
  | [] => 0
  | GrCCPRGeometry.Verb.kLineTo :: vs => countLineTo vs + 1
  | _ :: vs => countLineTo vs

/-- The buffer-pairing invariant: the arity walk over the verb buffer
exhausts the points buffer exactly. -/
def PtsInv (g : GrCCPRGeometry) : Prop :=
  aritySum g.fVerbs = g.fPoints.length

/-- The contour-tally invariant relative to a baseline count of line-to
verbs already in the buffer when the contour began: the fan-triangle count
equals the line-to verbs emitted during the contour plus the three curve
counters, and all counters are non-negative. -/
def ContourInv (base : Nat) (g : GrCCPRGeometry) : Prop :=
  g.fCurrContourTallies.fTriangles =
      ((countLineTo g.fVerbs : Int) - (base : Int)) +
        g.fCurrContourTallies.fQuadratics + g.fCurrContourTallies.fSerpentines +
        g.fCurrContourTallies.fLoops ∧
    0 ≤ g.fCurrContourTallies.fQuadratics ∧
    0 ≤ g.fCurrContourTallies.fSerpentines ∧
    0 ≤ g.fCurrContourTallies.fLoops ∧
    (base : Int) ≤ (countLineTo g.fVerbs : Int)

/-- All four tally counters are non-negative. -/
def talliesNonneg (t : GrCCPRGeometry.PrimitiveTallies) : Prop :=
  0 ≤ t.fTriangles ∧ 0 ≤ t.fQuadratics ∧ 0 ≤ t.fSerpentines ∧ 0 ≤ t.fLoops

/-- Arity of a cons verb stream. -/
theorem aritySum_cons (v : GrCCPRGeometry.Verb) (vs : List GrCCPRGeometry.Verb) :
    aritySum (v :: vs) = GrCCPRGeometry.arity v + aritySum vs := rfl

/-- Arity sums add over concatenation of verb streams. -/
theorem aritySum_append (a b : List GrCCPRGeometry.Verb) :
    aritySum (a ++ b) = aritySum a + aritySum b := by
  induction a with
  | nil => simp [aritySum]
  | cons v vs ih => simp [aritySum_cons, ih]; omega

/-- Line-to count of a cons verb stream. -/
theorem countLineTo_cons (v : GrCCPRGeometry.Verb) (vs : List GrCCPRGeometry.Verb) :
    countLineTo (v :: vs) =
      (if v = GrCCPRGeometry.Verb.kLineTo then 1 else 0) + countLineTo vs := by
  cases v <;> simp [countLineTo] <;> omega

/-- Line-to counts add over concatenation of verb streams. -/
theorem countLineTo_append (a b : List GrCCPRGeometry.Verb) :
    countLineTo (a ++ b) = countLineTo a + countLineTo b := by
  induction a with
  | nil => simp [countLineTo]
  | cons v vs ih => cases v <;> simp [countLineTo, ih] <;> omega

/-- beginPath preserves the buffer-pairing invariant. -/
theorem ptsInv_beginPath (g : GrCCPRGeometry) (h : PtsInv g) :
    PtsInv (GrCCPRGeometry.beginPath g) := by
  unfold PtsInv at h
  unfold PtsInv GrCCPRGeometry.beginPath
  simp [aritySum_append, aritySum_cons, aritySum, GrCCPRGeometry.arity]
  omega

/-- beginContour preserves the buffer-pairing invariant. -/
theorem ptsInv_beginContour (g : GrCCPRGeometry) (p : SkPoint) (h : PtsInv g) :
    PtsInv (GrCCPRGeometry.beginContour g p) := by
  unfold PtsInv at h
  unfold PtsInv GrCCPRGeometry.beginContour
  simp [aritySum_append, aritySum_cons, aritySum, GrCCPRGeometry.arity]
  omega

/-- lineTo preserves the buffer-pairing invariant. -/
theorem ptsInv_lineTo (g : GrCCPRGeometry) (p : SkPoint) (h : PtsInv g) :
    PtsInv (GrCCPRGeometry.lineTo g p) := by
  unfold PtsInv at h
  unfold PtsInv GrCCPRGeometry.lineTo
  simp [aritySum_append, aritySum_cons, aritySum, GrCCPRGeometry.arity]
  omega

/-- appendMonotonicQuadratic preserves the buffer-pairing invariant. -/
theorem ptsInv_appendMonotonicQuadratic (g : GrCCPRGeometry) (p1 p2 : SkPoint)
    (h : PtsInv g) : PtsInv (GrCCPRGeometry.appendMonotonicQuadratic g p1 p2) := by
  unfold PtsInv at h
  unfold PtsInv GrCCPRGeometry.appendMonotonicQuadratic
  simp [aritySum_append, aritySum_cons, aritySum, GrCCPRGeometry.arity]
  omega

/-- quadraticTo preserves the buffer-pairing invariant. -/
theorem ptsInv_quadraticTo (g : GrCCPRGeometry) (p1 p2 : SkPoint) (h : PtsInv g) :
    PtsInv (GrCCPRGeometry.quadraticTo g p1 p2) := by
  unfold GrCCPRGeometry.quadraticTo
  cases hc : GrCCPRGeometry.chopParam g.fCurrFanPoint p1 p2 with
  | none => simpa [hc] using ptsInv_appendMonotonicQuadratic g p1 p2 h
  | some t =>
      simp only [hc]
      exact ptsInv_appendMonotonicQuadratic _ _ _
        (ptsInv_appendMonotonicQuadratic _ _ _ h)

/-- appendConvexCubic preserves the buffer-pairing invariant. -/
theorem ptsInv_appendConvexCubic (g : GrCCPRGeometry)
    (pc : Bool × SkPoint × SkPoint × SkPoint) (h : PtsInv g) :
    PtsInv (GrCCPRGeometry.appendConvexCubic g pc) := by
  unfold PtsInv at h
  unfold PtsInv GrCCPRGeometry.appendConvexCubic
  by_cases hb : pc.1 = true <;>
    simp [hb, aritySum_append, aritySum_cons, aritySum, GrCCPRGeometry.arity] <;>
    omega

/-- Appending any list of tagged convex pieces preserves the buffer-pairing
invariant. -/
theorem ptsInv_appendConvexList (l : List (Bool × SkPoint × SkPoint × SkPoint)) :
    ∀ g : GrCCPRGeometry, PtsInv g → PtsInv (GrCCPRGeometry.appendConvexList g l) := by
  induction l with
  | nil => intro g h; simpa [GrCCPRGeometry.appendConvexList] using h
  | cons pc l ih =>
      intro g h
      have h2 := ptsInv_appendConvexCubic g pc h
      simpa [GrCCPRGeometry.appendConvexList] using
        ih (GrCCPRGeometry.appendConvexCubic g pc) h2

/-- cubicTo preserves the buffer-pairing invariant. -/
theorem ptsInv_cubicTo (g : GrCCPRGeometry) (p1 p2 p3 : SkPoint) (h : PtsInv g) :
    PtsInv (GrCCPRGeometry.cubicTo g p1 p2 p3) := by
  unfold GrCCPRGeometry.cubicTo
  by_cases h12 : (Scalar.veq (GrCCPRGeometry.cubicDs g.fCurrFanPoint p1 p2 p3).1 0 &&
      Scalar.veq (GrCCPRGeometry.cubicDs g.fCurrFanPoint p1 p2 p3).2.1 0) = true
  · by_cases h3 : Scalar.veq (GrCCPRGeometry.cubicDs g.fCurrFanPoint p1 p2 p3).2.2 0 = true
    · simpa [h12, h3] using ptsInv_lineTo g p3 h
    · simpa [h12, h3] using ptsInv_quadraticTo g
        (GrCCPRGeometry.quadCtrlOfCubic g.fCurrFanPoint p1) p3 h
  · have h4 := ptsInv_appendConvexList
      (GrCCPRGeometry.convexPieceList g.fCurrFanPoint p1 p2 p3
        (GrCCPRGeometry.cubicDs g.fCurrFanPoint p1 p2 p3).1
        (GrCCPRGeometry.cubicDs g.fCurrFanPoint p1 p2 p3).2.1
        (GrCCPRGeometry.cubicDs g.fCurrFanPoint p1 p2 p3).2.2) g h
    unfold PtsInv at h4 ⊢
    simp [h12]
    exact h4

/-- endContour preserves the buffer-pairing invariant. -/
theorem ptsInv_endContour (g : GrCCPRGeometry) (h : PtsInv g) :
    PtsInv (GrCCPRGeometry.endContour g).1 := by
  unfold PtsInv at h
  unfold PtsInv GrCCPRGeometry.endContour
  by_cases hc : SkPoint.eqv g.fCurrFanPoint g.fCurrAnchorPoint = true <;>
    simp [hc, aritySum_append, aritySum_cons, aritySum, GrCCPRGeometry.arity] <;>
    omega

/-- beginContour establishes the contour-tally invariant with the line-to
count at contour-begin as the baseline. -/
theorem contourInv_beginContour (g : GrCCPRGeometry) (p : SkPoint) :
    ContourInv (countLineTo g.fVerbs) (GrCCPRGeometry.beginContour g p) := by
  unfold ContourInv GrCCPRGeometry.beginContour
  simp [countLineTo_append, countLineTo]

/-- lineTo preserves the contour-tally invariant. -/
theorem contourInv_lineTo (base : Nat) (g : GrCCPRGeometry) (p : SkPoint)
    (h : ContourInv base g) : ContourInv base (GrCCPRGeometry.lineTo g p) := by
  unfold ContourInv at h
  unfold ContourInv GrCCPRGeometry.lineTo
  simp [countLineTo_append, countLineTo]
  omega

/-- appendMonotonicQuadratic preserves the contour-tally invariant. -/
theorem contourInv_appendMonotonicQuadratic (base : Nat) (g : GrCCPRGeometry)
    (p1 p2 : SkPoint) (h : ContourInv base g) :
    ContourInv base (GrCCPRGeometry.appendMonotonicQuadratic g p1 p2) := by
  unfold ContourInv at h
  unfold ContourInv GrCCPRGeometry.appendMonotonicQuadratic
  simp [countLineTo_append, countLineTo]
  omega

/-- quadraticTo preserves the contour-tally invariant. -/
theorem contourInv_quadraticTo (base : Nat) (g : GrCCPRGeometry) (p1 p2 : SkPoint)
    (h : ContourInv base g) : ContourInv base (GrCCPRGeometry.quadraticTo g p1 p2) := by
  unfold GrCCPRGeometry.quadraticTo
  cases hc : GrCCPRGeometry.chopParam g.fCurrFanPoint p1 p2 with
  | none => simpa [hc] using contourInv_appendMonotonicQuadratic base g p1 p2 h
  | some t =>
      simp only [hc]
      exact contourInv_appendMonotonicQuadratic base _ _ _
        (contourInv_appendMonotonicQuadratic base _ _ _ h)

/-- appendConvexCubic preserves the contour-tally invariant. -/
theorem contourInv_appendConvexCubic (base : Nat) (g : GrCCPRGeometry)
    (pc : Bool × SkPoint × SkPoint × SkPoint) (h : ContourInv base g) :
    ContourInv base (GrCCPRGeometry.appendConvexCubic g pc) := by
  unfold ContourInv at h
  unfold ContourInv GrCCPRGeometry.appendConvexCubic
  by_cases hb : pc.1 = true <;> simp [hb, countLineTo_append, countLineTo] <;> omega

/-- Appending any list of tagged convex pieces preserves the contour-tally
invariant. -/
theorem contourInv_appendConvexList (base : Nat)
    (l : List (Bool × SkPoint × SkPoint × SkPoint)) :
    ∀ g : GrCCPRGeometry, ContourInv base g →
      ContourInv base (GrCCPRGeometry.appendConvexList g l) := by
  induction l with
  | nil => intro g h; simpa [GrCCPRGeometry.appendConvexList] using h
  | cons pc l ih =>
      intro g h
      have h2 := contourInv_appendConvexCubic base g pc h
      simpa [GrCCPRGeometry.appendConvexList] using
        ih (GrCCPRGeometry.appendConvexCubic g pc) h2

/-- cubicTo preserves the contour-tally invariant. -/
theorem contourInv_cubicTo (base : Nat) (g : GrCCPRGeometry) (p1 p2 p3 : SkPoint)
    (h : ContourInv base g) : ContourInv base (GrCCPRGeometry.cubicTo g p1 p2 p3) := by
  unfold GrCCPRGeometry.cubicTo
  by_cases h12 : (Scalar.veq (GrCCPRGeometry.cubicDs g.fCurrFanPoint p1 p2 p3).1 0 &&
      Scalar.veq (GrCCPRGeometry.cubicDs g.fCurrFanPoint p1 p2 p3).2.1 0) = true
  · by_cases h3 : Scalar.veq (GrCCPRGeometry.cubicDs g.fCurrFanPoint p1 p2 p3).2.2 0 = true
    · simpa [h12, h3] using contourInv_lineTo base g p3 h
    · simpa [h12, h3] using contourInv_quadraticTo base g
        (GrCCPRGeometry.quadCtrlOfCubic g.fCurrFanPoint p1) p3 h
  · have h4 := contourInv_appendConvexList base
      (GrCCPRGeometry.convexPieceList g.fCurrFanPoint p1 p2 p3
        (GrCCPRGeometry.cubicDs g.fCurrFanPoint p1 p2 p3).1
        (GrCCPRGeometry.cubicDs g.fCurrFanPoint p1 p2 p3).2.1
        (GrCCPRGeometry.cubicDs g.fCurrFanPoint p1 p2 p3).2.2) g h
    unfold ContourInv at h4 ⊢
    simp [h12]
    exact_mod_cast h4

/-- One segment-append call preserves the contour-tally invariant. -/
theorem contourInv_runSeg (base : Nat) (g : GrCCPRGeometry) (s : SegCmd)
    (h : ContourInv base g) : ContourInv base (runSeg g s) := by
  cases s with
  | lineTo p => exact contourInv_lineTo base g p h
  | quadraticTo p1 p2 => exact contourInv_quadraticTo base g p1 p2 h
  | cubicTo p1 p2 p3 => exact contourInv_cubicTo base g p1 p2 p3 h

/-- A sequence of segment-append calls preserves the contour-tally
invariant. -/
theorem contourInv_runSegs (base : Nat) (l : List SegCmd) :
    ∀ g : GrCCPRGeometry, ContourInv base g → ContourInv base (runSegs g l) := by
  induction l with
  | nil => intro g h; simpa [runSegs] using h
  | cons s l ih =>
      intro g h
      simpa [runSegs] using ih (runSeg g s) (contourInv_runSeg base g s h)

/-- A legally executed API call preserves the buffer-pairing invariant. -/
theorem ptsInv_runCmd (g : GrCCPRGeometry) (c : Cmd) (g2 : GrCCPRGeometry)
    (h : runCmd g c = some g2) (hg : PtsInv g) : PtsInv g2 := by
  cases c with
  | beginPath =>
      unfold runCmd at h
      by_cases hb : g.fBuildingContour = true
      · simp [hb] at h
      · simp [hb] at h; exact h ▸ ptsInv_beginPath g hg
  | beginContour p =>
      unfold runCmd at h
      by_cases hb : g.fBuildingContour = true
      · simp [hb] at h
      · simp [hb] at h; exact h ▸ ptsInv_beginContour g p hg
  | lineTo p =>
      unfold runCmd at h
      by_cases hb : g.fBuildingContour = true
      · simp [hb] at h; exact h ▸ ptsInv_lineTo g p hg
      · simp [hb] at h
  | quadraticTo p1 p2 =>
      unfold runCmd at h
      by_cases hb : g.fBuildingContour = true
      · simp [hb] at h; exact h ▸ ptsInv_quadraticTo g p1 p2 hg
      · simp [hb] at h
  | cubicTo p1 p2 p3 =>
      unfold runCmd at h
      by_cases hb : g.fBuildingContour = true
      · simp [hb] at h; exact h ▸ ptsInv_cubicTo g p1 p2 p3 hg
      · simp [hb] at h
  | endContour =>
      unfold runCmd at h
      by_cases hb : g.fBuildingContour = true
      · simp [hb] at h; exact h ▸ ptsInv_endContour g hg
      · simp [hb] at h

/-- A legally executed API call sequence preserves the buffer-pairing
invariant. -/
theorem ptsInv_runCmds (l : List Cmd) :
    ∀ g g2 : GrCCPRGeometry, runCmds g l = some g2 → PtsInv g → PtsInv g2 := by
  induction l with
  | nil =>
      intro g g2 h hg
      simp [runCmds] at h
      exact h ▸ hg
  | cons c l ih =>
      intro g g2 h hg
      unfold runCmds at h
      cases hc : runCmd g c with
      | none => simp [hc] at h
      | some gm =>
          simp only [hc] at h
          exact ih gm g2 h (ptsInv_runCmd g c gm hc hg)

/-- The tangent-reversal condition of the monotonic decomposer: the signed
rate of change along the chord has strictly opposite signs at the two
endpoints, which is exactly the existence of a root strictly inside the
open unit interval of the linear chord-tangent function. -/
def GrCCPRGeometry.tangentReversal (p0 p1 p2 : SkPoint) : Prop :=
  Scalar.vlt
    (SkPoint.dot (SkPoint.sub p1 p0) (SkPoint.sub p2 p0) *
      SkPoint.dot (SkPoint.sub p2 p1) (SkPoint.sub p2 p0)) 0 = true

instance (p0 p1 p2 : SkPoint) : Decidable (GrCCPRGeometry.tangentReversal p0 p1 p2) :=
  inferInstanceAs (Decidable (_ = true))

/-- The straight-line two-segment contour of the worked example, run on an
empty accumulator. -/
def c7Run : GrCCPRGeometry × GrCCPRGeometry.PrimitiveTallies :=
  GrCCPRGeometry.endContour (GrCCPRGeometry.lineTo (GrCCPRGeometry.lineTo
    (GrCCPRGeometry.beginContour (mkGrCCPRGeometry 0 0) (mkPt 0 0)) (mkPt 10 0)) (mkPt 10 10))

/-- The tally returned for that same straight-line contour, built through
the segment-command runner. -/
def c1Tally : GrCCPRGeometry.PrimitiveTallies :=
  (GrCCPRGeometry.endContour (runSegs
    (GrCCPRGeometry.beginContour (mkGrCCPRGeometry 0 0) (mkPt 0 0))
    [SegCmd.lineTo (mkPt 10 0), SegCmd.lineTo (mkPt 10 10)])).2

/-- The final state of a one-line contour, used to instantiate the amended
tally identity. -/
def c1WitnessEnd : GrCCPRGeometry :=
  runSegs (GrCCPRGeometry.beginContour (mkGrCCPRGeometry 0 0) (mkPt 0 0))
    [SegCmd.lineTo (mkPt 7 0)]

/-- C1 counterexample: the contour beginContour (0,0), lineTo (10,0),
lineTo (10,10), endContour returns the tally with two triangles and zero
quadratics, serpentines and loops, so the claimed identity, triangles equal
to quadratics plus serpentines plus loops, fails on it. -/
theorem c1_tally_counterexample :
    ¬ (c1Tally.fTriangles =
        c1Tally.fQuadratics + c1Tally.fSerpentines + c1Tally.fLoops) := by decide

/-- C1 (amended): for every contour built by the accumulator, the tally
returned by endContour satisfies: fTriangles equals the number of line-to
verbs emitted during the contour plus fQuadratics plus fSerpentines plus
fLoops (every primitive, lines included, contributes exactly one fan
triangle; lines increment no specialized counter). -/
theorem c1_tally_amended (g0 : GrCCPRGeometry) (anchor : SkPoint)
    (segs : List SegCmd) (gEnd : GrCCPRGeometry)
    (h : runSegs (GrCCPRGeometry.beginContour g0 anchor) segs = gEnd) :
    (GrCCPRGeometry.endContour gEnd).2.fTriangles =
      ((countLineTo gEnd.fVerbs : Int) - (countLineTo g0.fVerbs : Int)) +
        (GrCCPRGeometry.endContour gEnd).2.fQuadratics +
        (GrCCPRGeometry.endContour gEnd).2.fSerpentines +
        (GrCCPRGeometry.endContour gEnd).2.fLoops := by
  subst h
  have h1 := contourInv_runSegs (countLineTo g0.fVerbs) segs _
    (contourInv_beginContour g0 anchor)
  unfold ContourInv at h1
  simp only [GrCCPRGeometry.endContour]
  exact h1.1

/-- C1 witness: the amended identity instantiated on a concrete one-line
contour. -/
theorem c1_tally_amended_witness :
    (GrCCPRGeometry.endContour c1WitnessEnd).2.fTriangles =
      ((countLineTo c1WitnessEnd.fVerbs : Int) -
        (countLineTo (mkGrCCPRGeometry 0 0).fVerbs : Int)) +
        (GrCCPRGeometry.endContour c1WitnessEnd).2.fQuadratics +
        (GrCCPRGeometry.endContour c1WitnessEnd).2.fSerpentines +
        (GrCCPRGeometry.endContour c1WitnessEnd).2.fLoops :=
  c1_tally_amended (mkGrCCPRGeometry 0 0) (mkPt 0 0)
    [SegCmd.lineTo (mkPt 7 0)] c1WitnessEnd rfl

/-- C2: for every legally executed sequence of accumulator API calls that
leaves no contour open, summing each verb's fixed point-arity over verbs()
yields exactly the size of points(). -/
theorem c2_arity_exhausts_points (numSkPoints numSkVerbs : Nat) (calls : List Cmd)
    (g : GrCCPRGeometry)
    (h : runCmds (mkGrCCPRGeometry numSkPoints numSkVerbs) calls = some g)
    (hOpen : g.fBuildingContour = false) :
    aritySum (GrCCPRGeometry.verbs g) = (GrCCPRGeometry.points g).length := by
  have h0 : PtsInv (mkGrCCPRGeometry numSkPoints numSkVerbs) := by
    simp [PtsInv, mkGrCCPRGeometry, aritySum]
  simpa [PtsInv, GrCCPRGeometry.verbs, GrCCPRGeometry.points] using
    ptsInv_runCmds calls _ g h h0

/-- A concrete legal call sequence with a line and a monotonic quadratic. -/
def c2Calls : List Cmd :=
  [Cmd.beginContour (mkPt 0 0), Cmd.lineTo (mkPt 4 0),
   Cmd.quadraticTo (mkPt 6 2) (mkPt 8 0), Cmd.endContour]

/-- The state that concrete call sequence produces. -/
def c2State : GrCCPRGeometry :=
  (GrCCPRGeometry.endContour (GrCCPRGeometry.quadraticTo (GrCCPRGeometry.lineTo
    (GrCCPRGeometry.beginContour (mkGrCCPRGeometry 0 0) (mkPt 0 0)) (mkPt 4 0))
    (mkPt 6 2) (mkPt 8 0))).1

/-- C2 witness: the arity walk instantiated on the concrete call
sequence. -/
theorem c2_arity_exhausts_points_witness :
    runCmds (mkGrCCPRGeometry 0 0) c2Calls = some c2State ∧
      c2State.fBuildingContour = false ∧
      aritySum (GrCCPRGeometry.verbs c2State) = (GrCCPRGeometry.points c2State).length :=
  ⟨by decide, by decide,
    c2_arity_exhausts_points 0 0 c2Calls c2State (by decide) (by decide)⟩

/-- C3: on an open contour, endContour appends a contour-end-closed verb
when the running point equals the fan anchor (exact value equality models
the tight numeric tolerance), otherwise a contour-end-open verb. -/
theorem c3_endContour_verb (g : GrCCPRGeometry) (h : g.fBuildingContour = true) :
    (GrCCPRGeometry.endContour g).1.fVerbs =
      g.fVerbs ++
        [if SkPoint.eqv g.fCurrFanPoint g.fCurrAnchorPoint then
          GrCCPRGeometry.Verb.kEndClosedContour
        else GrCCPRGeometry.Verb.kEndOpenContour] := rfl

/-- An open contour whose running point differs from its anchor. -/
def c3Open : GrCCPRGeometry :=
  GrCCPRGeometry.lineTo
    (GrCCPRGeometry.beginContour (mkGrCCPRGeometry 0 0) (mkPt 0 0)) (mkPt 3 0)

/-- C3 witness: the endContour verb rule instantiated on a concrete open
contour. -/
theorem c3_endContour_verb_witness :
    c3Open.fBuildingContour = true ∧
      (GrCCPRGeometry.endContour c3Open).1.fVerbs =
        c3Open.fVerbs ++
          [if SkPoint.eqv c3Open.fCurrFanPoint c3Open.fCurrAnchorPoint then
            GrCCPRGeometry.Verb.kEndClosedContour
          else GrCCPRGeometry.Verb.kEndOpenContour] :=
  ⟨by decide, c3_endContour_verb c3Open (by decide)⟩

/-- C4: accumulating a second tally into a first with the model of
operator+= and then subtracting the original first with the model of
operator- recovers the second tally exactly, in every component, so a
contour tally computed as an after-minus-before delta is exactly that
contour's contribution. -/
theorem c4_tally_add_sub_recovers (a b : GrCCPRGeometry.PrimitiveTallies) :
    (a.add b).sub a = b := by
  cases a
  cases b
  simp [GrCCPRGeometry.PrimitiveTallies.add, GrCCPRGeometry.PrimitiveTallies.sub]

/-- The last element of a non-trivial prefix of a list is the list element
just before the cut. -/
theorem take_getLast_eq {α : Type} (l : List α) (n : Nat) (h1 : n ≠ 0)
    (h2 : n ≤ l.length) : (l.take n).getLast? = l[n - 1]? := by
  rw [List.getLast?_eq_getElem?, List.length_take, List.getElem?_take]
  have hm : min n l.length = n := Nat.min_eq_left h2
  rw [hm]
  simp
  omega

/-- C5: called with no contour open, resize_back truncates both buffers to
exactly the given lengths, and the checked invariant (the assertion at
header lines 72-73) holds whenever the truncation lands immediately after a
contour-end verb (in particular the empty truncation is always accepted). -/
theorem c5_resize_back_truncates (g : GrCCPRGeometry) (numPoints numVerbs : Nat)
    (hOpen : g.fBuildingContour = false)
    (hp : numPoints ≤ g.fPoints.length) (hv : numVerbs ≤ g.fVerbs.length) :
    (g.resize_back numPoints numVerbs).fPoints.length = numPoints ∧
      (g.resize_back numPoints numVerbs).fVerbs.length = numVerbs ∧
      (∀ v : GrCCPRGeometry.Verb,
        (numVerbs = 0 ∨
          (g.fVerbs[numVerbs - 1]? = some v ∧
            (v = GrCCPRGeometry.Verb.kEndOpenContour ∨
              v = GrCCPRGeometry.Verb.kEndClosedContour))) →
        GrCCPRGeometry.resizeBackAssertOK (g.resize_back numPoints numVerbs)) := by
  refine ⟨?_, ?_, ?_⟩
  · simp [GrCCPRGeometry.resize_back, List.length_take]
    omega
  · simp [GrCCPRGeometry.resize_back, List.length_take]
    omega
  · intro v hcase
    cases hcase with
    | inl h0 =>
        left
        simp [GrCCPRGeometry.resize_back, h0]
    | inr hend =>
        by_cases h0 : numVerbs = 0
        · left
          simp [GrCCPRGeometry.resize_back, h0]
        · right
          refine ⟨v, ?_, hend.2⟩
          show (g.fVerbs.take numVerbs).getLast? = some v
          rw [take_getLast_eq g.fVerbs numVerbs h0 hv]
          exact hend.1

/-- A two-contour buffer: a one-line open contour followed by a degenerate
closed contour. -/
def c5G : GrCCPRGeometry :=
  (GrCCPRGeometry.endContour (GrCCPRGeometry.beginContour
    (GrCCPRGeometry.endContour (GrCCPRGeometry.lineTo
      (GrCCPRGeometry.beginContour (mkGrCCPRGeometry 0 0) (mkPt 0 0))
      (mkPt 1 0))).1 (mkPt 5 5))).1

/-- C5 witness: truncating the two-contour buffer back to its first contour
leaves exactly the first contour's sizes and satisfies the checked
invariant. -/
theorem c5_resize_back_truncates_witness :
    (c5G.resize_back 2 3).fPoints.length = 2 ∧
      (c5G.resize_back 2 3).fVerbs.length = 3 ∧
      GrCCPRGeometry.resizeBackAssertOK (c5G.resize_back 2 3) := by
  obtain ⟨h1, h2, h3⟩ := c5_resize_back_truncates c5G 2 3 (by decide) (by decide) (by decide)
  exact ⟨h1, h2,
    h3 GrCCPRGeometry.Verb.kEndOpenContour (Or.inr ⟨by decide, Or.inl rfl⟩)⟩

/-- C6: a quadraticTo call whose quadratic (from the running point) has a
tangent reversal relative to its chord strictly inside the open unit
interval emits exactly two monotonic-quadratic-to verbs, appending the two
de Casteljau halves, and the end point of the first emitted piece is the
very split point from which the second piece starts (the running point
after the first append). -/
theorem c6_quadratic_reversal_split (g : GrCCPRGeometry) (p1 p2 : SkPoint)
    (h : GrCCPRGeometry.tangentReversal g.fCurrFanPoint p1 p2) :
    ∃ t : Scalar,
      GrCCPRGeometry.chopParam g.fCurrFanPoint p1 p2 = some t ∧
        GrCCPRGeometry.quadraticTo g p1 p2 =
          GrCCPRGeometry.appendMonotonicQuadratic
            (GrCCPRGeometry.appendMonotonicQuadratic g
              (SkPoint.lerp g.fCurrFanPoint p1 t)
              (SkPoint.lerp (SkPoint.lerp g.fCurrFanPoint p1 t)
                (SkPoint.lerp p1 p2 t) t))
            (SkPoint.lerp p1 p2 t) p2 ∧
        (GrCCPRGeometry.quadraticTo g p1 p2).fVerbs =
          g.fVerbs ++ [GrCCPRGeometry.Verb.kMonotonicQuadraticTo,
            GrCCPRGeometry.Verb.kMonotonicQuadraticTo] ∧
        (GrCCPRGeometry.quadraticTo g p1 p2).fPoints =
          g.fPoints ++ [SkPoint.lerp g.fCurrFanPoint p1 t,
            SkPoint.lerp (SkPoint.lerp g.fCurrFanPoint p1 t) (SkPoint.lerp p1 p2 t) t,
            SkPoint.lerp p1 p2 t, p2] ∧
        (GrCCPRGeometry.appendMonotonicQuadratic g
            (SkPoint.lerp g.fCurrFanPoint p1 t)
            (SkPoint.lerp (SkPoint.lerp g.fCurrFanPoint p1 t)
              (SkPoint.lerp p1 p2 t) t)).fCurrFanPoint =
          SkPoint.lerp (SkPoint.lerp g.fCurrFanPoint p1 t) (SkPoint.lerp p1 p2 t) t := by
  unfold GrCCPRGeometry.tangentReversal at h
  have hc : GrCCPRGeometry.chopParam g.fCurrFanPoint p1 p2 =
      some (SkPoint.dot (SkPoint.sub p1 g.fCurrFanPoint) (SkPoint.sub p2 g.fCurrFanPoint) /
        (SkPoint.dot (SkPoint.sub p1 g.fCurrFanPoint) (SkPoint.sub p2 g.fCurrFanPoint) -
          SkPoint.dot (SkPoint.sub p2 p1) (SkPoint.sub p2 g.fCurrFanPoint))) := by
    unfold GrCCPRGeometry.chopParam
    simp [h]
  refine ⟨_, hc, ?_, ?_, ?_, rfl⟩
  · simp only [GrCCPRGeometry.quadraticTo]
    rw [hc]
  · simp only [GrCCPRGeometry.quadraticTo]
    rw [hc]
    simp [GrCCPRGeometry.appendMonotonicQuadratic]
  · simp only [GrCCPRGeometry.quadraticTo]
    rw [hc]
    simp [GrCCPRGeometry.appendMonotonicQuadratic]

/-- An open contour from the origin whose next quadratic doubles back
against its chord. -/
def c6Open : GrCCPRGeometry :=
  GrCCPRGeometry.beginContour (mkGrCCPRGeometry 0 0) (mkPt 0 0)

/-- C6 witness: the split rule instantiated on the concrete reversing
quadratic with control (2,1) and end (1,0) from the origin. -/
theorem c6_quadratic_reversal_split_witness :
    GrCCPRGeometry.tangentReversal c6Open.fCurrFanPoint (mkPt 2 1) (mkPt 1 0) ∧
      ∃ t : Scalar,
        GrCCPRGeometry.chopParam c6Open.fCurrFanPoint (mkPt 2 1) (mkPt 1 0) = some t ∧
          GrCCPRGeometry.quadraticTo c6Open (mkPt 2 1) (mkPt 1 0) =
            GrCCPRGeometry.appendMonotonicQuadratic
              (GrCCPRGeometry.appendMonotonicQuadratic c6Open
                (SkPoint.lerp c6Open.fCurrFanPoint (mkPt 2 1) t)
                (SkPoint.lerp (SkPoint.lerp c6Open.fCurrFanPoint (mkPt 2 1) t)
                  (SkPoint.lerp (mkPt 2 1) (mkPt 1 0) t) t))
              (SkPoint.lerp (mkPt 2 1) (mkPt 1 0) t) (mkPt 1 0) ∧
          (GrCCPRGeometry.quadraticTo c6Open (mkPt 2 1) (mkPt 1 0)).fVerbs =
            c6Open.fVerbs ++ [GrCCPRGeometry.Verb.kMonotonicQuadraticTo,
              GrCCPRGeometry.Verb.kMonotonicQuadraticTo] ∧
          (GrCCPRGeometry.quadraticTo c6Open (mkPt 2 1) (mkPt 1 0)).fPoints =
            c6Open.fPoints ++ [SkPoint.lerp c6Open.fCurrFanPoint (mkPt 2 1) t,
              SkPoint.lerp (SkPoint.lerp c6Open.fCurrFanPoint (mkPt 2 1) t)
                (SkPoint.lerp (mkPt 2 1) (mkPt 1 0) t) t,
              SkPoint.lerp (mkPt 2 1) (mkPt 1 0) t, mkPt 1 0] ∧
          (GrCCPRGeometry.appendMonotonicQuadratic c6Open
              (SkPoint.lerp c6Open.fCurrFanPoint (mkPt 2 1) t)
              (SkPoint.lerp (SkPoint.lerp c6Open.fCurrFanPoint (mkPt 2 1) t)
                (SkPoint.lerp (mkPt 2 1) (mkPt 1 0) t) t)).fCurrFanPoint =
            SkPoint.lerp (SkPoint.lerp c6Open.fCurrFanPoint (mkPt 2 1) t)
              (SkPoint.lerp (mkPt 2 1) (mkPt 1 0) t) t :=
  ⟨by decide, c6_quadratic_reversal_split c6Open (mkPt 2 1) (mkPt 1 0) (by decide)⟩

/-- C7: the straight-line contour beginContour (0,0), lineTo (10,0),
lineTo (10,10), endContour on an empty accumulator emits the verbs
contour-begin, line-to, line-to, contour-end-open, the three input points,
and the tally with two triangles and zero quadratics, serpentines and
loops. -/
theorem c7_straight_line_contour :
    GrCCPRGeometry.verbs c7Run.1 =
      [GrCCPRGeometry.Verb.kBeginContour, GrCCPRGeometry.Verb.kLineTo,
        GrCCPRGeometry.Verb.kLineTo, GrCCPRGeometry.Verb.kEndOpenContour] ∧
    GrCCPRGeometry.points c7Run.1 = [mkPt 0 0, mkPt 10 0, mkPt 10 10] ∧
    c7Run.2 = ⟨2, 0, 0, 0⟩ := by decide

/-- C8: after reset, called with no contour open, both accessors report
empty buffers whatever the prior buffer contents were. -/
theorem c8_reset_empties (g : GrCCPRGeometry) (h : g.fBuildingContour = false) :
    (GrCCPRGeometry.points (GrCCPRGeometry.reset g)).isEmpty = true ∧
      (GrCCPRGeometry.verbs (GrCCPRGeometry.reset g)).isEmpty = true := by
  simp [GrCCPRGeometry.points, GrCCPRGeometry.verbs, GrCCPRGeometry.reset]

/-- A closed accumulator with non-empty buffers. -/
def c8G : GrCCPRGeometry :=
  (GrCCPRGeometry.endContour (GrCCPRGeometry.lineTo
    (GrCCPRGeometry.beginContour (mkGrCCPRGeometry 0 0) (mkPt 3 4)) (mkPt 5 6))).1

/-- C8 witness: reset instantiated on a concrete accumulator with non-empty
buffers. -/
theorem c8_reset_empties_witness :
    c8G.fBuildingContour = false ∧
      (GrCCPRGeometry.points (GrCCPRGeometry.reset c8G)).isEmpty = true ∧
      (GrCCPRGeometry.verbs (GrCCPRGeometry.reset c8G)).isEmpty = true :=
  ⟨by decide, c8_reset_empties c8G (by decide)⟩

/-- C9: the running per-contour tally after any segment sequence of a
contour, and the tally endContour returns for it, have all four counters
non-negative. -/
theorem c9_tallies_nonneg (g0 : GrCCPRGeometry) (anchor : SkPoint)
    (segs : List SegCmd) :
    talliesNonneg (runSegs (GrCCPRGeometry.beginContour g0 anchor) segs).fCurrContourTallies ∧
      talliesNonneg (GrCCPRGeometry.endContour
        (runSegs (GrCCPRGeometry.beginContour g0 anchor) segs)).2 := by
  have h1 := contourInv_runSegs (countLineTo g0.fVerbs) segs _
    (contourInv_beginContour g0 anchor)
  unfold ContourInv at h1
  unfold talliesNonneg
  simp only [GrCCPRGeometry.endContour]
  obtain ⟨he, hq, hs, hl, hb⟩ := h1
  refine ⟨⟨?_, hq, hs, hl⟩, ⟨?_, hq, hs, hl⟩⟩ <;> omega

/-- C10: a freshly constructed accumulator, whatever capacity reservations
its constructor arguments request, has no open contour and empty points and
verbs buffers. -/
theorem c10_fresh_accumulator_empty (numSkPoints numSkVerbs : Nat) :
    (mkGrCCPRGeometry numSkPoints numSkVerbs).fBuildingContour = false ∧
      (GrCCPRGeometry.points (mkGrCCPRGeometry numSkPoints numSkVerbs)).length = 0 ∧
      (GrCCPRGeometry.verbs (mkGrCCPRGeometry numSkPoints numSkVerbs)).length = 0 :=
  ⟨rfl, rfl, rfl⟩
